import Mathlib

/-!
# A shallow embedding of the URL-shortener service (`main.py`)

The service keeps a SQLite table `urls (shortcode TEXT PRIMARY KEY, url TEXT
NOT NULL, expiry TEXT NOT NULL, access_count INTEGER DEFAULT 0)` and exposes
two operations: `create_short_url` (allocate a shortcode) and
`redirect_to_url` (resolve a shortcode).

Modelling choices:
* The store is a `List URLRecord`; the list may in principle hold duplicate
  shortcodes, and the PRIMARY KEY constraint is embedded in `save_url`, which
  refuses an insert when the code is already present (SQLite raises an
  `IntegrityError`, modelled as `none`).
* Timestamps are `Nat` seconds.  `datetime.now() + timedelta(minutes=v)`
  formatted and reparsed with `"%Y-%m-%dT%H:%M:%SZ"` becomes
  `now + 60 * v`, and the comparison `datetime.now() > expiry_time` becomes
  `now > expiry` on `Nat`.
* Randomness (`random.choices`) is an oracle: `create_short_url` receives a
  stream `gen : Nat → String` whose `i`-th element is the result of the
  `i`-th call to `generate_shortcode` inside the request;
  `generate_shortcode` itself is embedded as a function of the six random
  alphabet draws.
* An `HTTPException(status_code, detail)` is the pair `HTTPErr`.  The outer
  `except Exception` handler of each endpoint, which converts any non-HTTP
  exception (e.g. a failing database operation) into a 500
  `"Internal server error"`, is embedded at the two places where a database
  exception can occur deterministically or is claim-relevant: a duplicate
  insert in `save_url`, and a failing `increment_count` (the `incOk` flag of
  `redirect_to_url`).
* Python's `str.isalnum` is Unicode-aware.  `pyIsAlnumChar` reproduces it
  exactly for code points below `0x100` (ASCII letters and digits, and the
  Latin-1 letters, ordinal indicators, micro sign, superscripts and vulgar
  fractions); code points `≥ 0x100` are outside the modelled domain and the
  theorems that depend on the exact classification carry a `Latin1Str`
  hypothesis.
-/

/-- One row of the `urls` table. -/
structure URLRecord where
  shortcode : String
  url : String
  expiry : Nat
  access_count : Nat
deriving Repr, DecidableEq

/-- The `urls` table. -/
abbrev Store := List URLRecord

/-- The request body of `POST /shorturls` (`class URLRequest(BaseModel)`):
`url: str`, `validity: int = 30`, `shortcode: str = None`. -/
structure URLRequest where
  url : String
  validity : Int := 30
  shortcode : Option String := none

/-- `HTTPException(status_code=..., detail=...)`. -/
structure HTTPErr where
  status : Nat
  detail : String
deriving Repr, DecidableEq

def invalidUrlErr : HTTPErr := ⟨400, "Invalid URL format"⟩
def invalidValidityErr : HTTPErr := ⟨400, "Invalid validity period"⟩
def shortcodeLengthErr : HTTPErr := ⟨400, "Shortcode must be 3-20 characters"⟩
def shortcodeFormatErr : HTTPErr := ⟨400, "Shortcode must be alphanumeric"⟩
def conflictErr : HTTPErr := ⟨400, "Shortcode already taken"⟩
def exhaustedErr : HTTPErr := ⟨500, "Could not generate shortcode"⟩
def notFoundErr : HTTPErr := ⟨404, "Short URL not found"⟩
def expiredErr : HTTPErr := ⟨410, "Short URL has expired"⟩
def internalErr : HTTPErr := ⟨500, "Internal server error"⟩

deriving instance DecidableEq for Except

/-- Python's `str.startswith(p)`: the code points of `p` are a prefix of the
code points of `s` (the source's `request.url.startswith(...)`); defined
over the character lists so that it evaluates by reduction. -/
def startsWithStr (s p : String) : Bool := List.isPrefixOf p.toList s.toList

/-- The spec's `InvalidInput` failure kind: the four validation rejections of
`create_short_url` (all raised before any store access that mutates). -/
def isInvalidInputErr (e : HTTPErr) : Bool :=
  e == invalidUrlErr || e == invalidValidityErr ||
  e == shortcodeLengthErr || e == shortcodeFormatErr

/-- `SELECT 1 FROM urls WHERE shortcode = ?` (`shortcode_exists`). -/
def shortcode_exists (s : Store) (c : String) : Bool :=
  s.any fun r => r.shortcode == c

/-- `INSERT INTO urls (shortcode, url, expiry) VALUES (?, ?, ?)`:
`shortcode` is the PRIMARY KEY, so SQLite rejects the insert (raises
`IntegrityError`, modelled as `none`) when the code is already present;
otherwise the row is appended with `access_count` at its default 0
(`save_url`). -/
def save_url (s : Store) (c url : String) (expiry : Nat) : Option Store :=
  if shortcode_exists s c then none
  else some (s ++ [⟨c, url, expiry, 0⟩])

/-- `SELECT url, expiry, access_count FROM urls WHERE shortcode = ?` with
`fetchone()` (`get_url`). -/
def get_url (s : Store) (c : String) : Option URLRecord :=
  s.find? fun r => r.shortcode == c

/-- `UPDATE urls SET access_count = access_count + 1 WHERE shortcode = ?`
(`increment_count`). -/
def increment_count (s : Store) (c : String) : Store :=
  s.map fun r =>
    if r.shortcode == c then { r with access_count := r.access_count + 1 } else r

/-- The 62-character alphabet `string.ascii_letters + string.digits`. -/
def shortcodeChars : List Char :=
  "abcdefghijklmnopqrstuvwxyzABCDEFGHIJKLMNOPQRSTUVWXYZ0123456789".toList

/-- `''.join(random.choices(chars, k=6))` (`generate_shortcode`), as a
function of the six random draws into the alphabet. -/
def generate_shortcode (draw : Fin 6 → Fin 62) : String :=
  String.mk ((List.finRange 6).map fun i => shortcodeChars.getD (draw i).val 'a')

/-- Python truthiness of the `shortcode` field: `if request.shortcode:` is
false for `None` and for the empty string. -/
def truthy : Option String → Bool
  | none => false
  | some s => s.length != 0

/-- Python's `str.isalnum` on one character, exact for code points below
`0x100`: ASCII letters and digits, plus the Latin-1 characters Python
classifies as alphanumeric (ª ² ³ µ ¹ º ¼ ½ ¾ and the letters À–Ö, Ø–ö,
ø–ÿ).  Code points `≥ 0x100` (where Python also accepts many letters) are
outside the modelled domain. -/
def pyIsAlnumChar (c : Char) : Bool :=
  c.isAlphanum ||
  c.val == 0xAA || c.val == 0xB2 || c.val == 0xB3 || c.val == 0xB5 ||
  c.val == 0xB9 || c.val == 0xBA || c.val == 0xBC || c.val == 0xBD ||
  c.val == 0xBE ||
  (0xC0 ≤ c.val && c.val ≤ 0xD6) ||
  (0xD8 ≤ c.val && c.val ≤ 0xF6) ||
  (0xF8 ≤ c.val && c.val ≤ 0xFF)

/-- Python's `str.isalnum`: false on the empty string, otherwise every
character is alphanumeric. -/
def pyIsAlnum (s : String) : Bool :=
  s.length != 0 && s.toList.all pyIsAlnumChar

/-- Every character of the string is in the code-point range where
`pyIsAlnumChar` models Python exactly. -/
def Latin1Str (s : String) : Prop :=
  ∀ c ∈ s.toList, c.val < 0x100

/-- The `while attempts < 10` loop of `create_short_url`: call
`generate_shortcode` (the `i`-th call returns `gen i`), `break` on the
first candidate with `not shortcode_exists(shortcode)`, give up (the
`while`/`else` arm) once ten candidates in a row were taken. -/
def findFresh (s : Store) (gen : Nat → String) : Nat → Nat → Option String
  | _, 0 => none
  | i, fuel + 1 =>
      let c := gen i
      if shortcode_exists s c then findFresh s gen (i + 1) fuel else some c

/-- The shortcode-selection block of `create_short_url` (lines 160–182):
a truthy custom shortcode is validated (length 3–20, `isalnum`, not taken),
otherwise up to ten random candidates are tried. -/
def chooseShortcode (s : Store) (sc? : Option String) (gen : Nat → String) :
    Except HTTPErr String :=
  if truthy sc? then
    let sc := sc?.getD ""
    if sc.length < 3 || 20 < sc.length then .error shortcodeLengthErr
    else if pyIsAlnum sc = false then .error shortcodeFormatErr
    else if shortcode_exists s sc then .error conflictErr
    else .ok sc
  else
    match findFresh s gen 0 10 with
    | some c => .ok c
    | none => .error exhaustedErr

/-- `POST /shorturls` (`create_short_url`): validate the URL prefix and the
validity window, select a shortcode, compute
`expiry = now + timedelta(minutes=validity)` and insert the row.  The
result pairs the endpoint's outcome — `(shortcode, expiry)` on success, the
raised `HTTPException` otherwise — with the store after the call.  A
duplicate-key failure of the insert propagates out of `save_url` and is
turned into a 500 by the outer `except Exception` handler. -/
def create_short_url (s : Store) (req : URLRequest) (now : Nat)
    (gen : Nat → String) : Except HTTPErr (String × Nat) × Store :=
  if !(startsWithStr req.url "http://" || startsWithStr req.url "https://") then
    (.error invalidUrlErr, s)
  else if req.validity < 1 || 525600 < req.validity then
    (.error invalidValidityErr, s)
  else
    match chooseShortcode s req.shortcode gen with
    | .error e => (.error e, s)
    | .ok shortcode =>
        let expiry := now + 60 * req.validity.toNat
        match save_url s shortcode req.url expiry with
        | none => (.error internalErr, s)
        | some s' => (.ok (shortcode, expiry), s')

/-- `GET /{shortcode}` (`redirect_to_url`): look the code up (404 when
absent), reject when `now > expiry` (410), then increment the access count
and redirect to the stored URL.  `incOk` says whether the
`increment_count` database operation completes; when it raises, the outer
`except Exception` handler answers 500 and the update is not committed. -/
def redirect_to_url (s : Store) (code : String) (now : Nat) (incOk : Bool) :
    Except HTTPErr String × Store :=
  match get_url s code with
  | none => (.error notFoundErr, s)
  | some r =>
      if r.expiry < now then (.error expiredErr, s)
      else if incOk then (.ok r.url, increment_count s code)
      else (.error internalErr, s)

/-- One endpoint call, for reasoning about sequences of calls. -/
inductive Op where
  | create (req : URLRequest) (now : Nat) (gen : Nat → String)
  | resolve (code : String) (now : Nat) (incOk : Bool)

/-- The store after one call. -/
def applyOp (s : Store) : Op → Store
  | .create req now gen => (create_short_url s req now gen).2
  | .resolve code now incOk => (redirect_to_url s code now incOk).2

/-- The store after a sequence of calls starting from `s`. -/
def runFrom (s : Store) : List Op → Store
  | [] => s
  | op :: ops => runFrom (applyOp s op) ops

/-- The store after a sequence of calls on a fresh database (`init_db`
creates the empty `urls` table). -/
def run (ops : List Op) : Store := runFrom [] ops

/-- The primitive mutating store operations, at the granularity at which
SQLite serializes them.  Concurrent interleavings of several endpoint
calls are arbitrary sequences of these. -/
inductive StoreOp where
  | insert (code url : String) (expiry : Nat)
  | increment (code : String)

/-- Effect of one primitive store operation; a rejected insert (duplicate
PRIMARY KEY) leaves the table unchanged. -/
def applyStoreOp (s : Store) : StoreOp → Store
  | .insert c u e => (save_url s c u e).getD s
  | .increment c => increment_count s c

/-- The store after a sequence of primitive operations starting from `s`. -/
def runStoreFrom (s : Store) : List StoreOp → Store
  | [] => s
  | op :: ops => runStoreFrom (applyStoreOp s op) ops

/-- No two rows of the table share a shortcode. -/
def codesNodup (s : Store) : Prop :=
  (s.map URLRecord.shortcode).Nodup

/-- The URL-prefix validation of `create_short_url`, as the theorems below
refer to it. -/
def validUrl (u : String) : Bool :=
  startsWithStr u "http://" || startsWithStr u "https://"

/-- The validity-window validation of `create_short_url`. -/
def validityOk (v : Int) : Bool := !(decide (v < 1) || decide (525600 < v))

/-- One `redirect_to_url` call with the resulting store fed into the next,
`N` times, all at clock value `now` with a working increment. -/
def iterResolve (s : Store) (code : String) (now : Nat) : Nat → Store
  | 0 => s
  | n + 1 => iterResolve ((redirect_to_url s code now true).2) code now n

/-- The outcome of an allocation counts as the spec's `InvalidInput` when it
is one of the four validation rejections. -/
def resultInvalidInput (res : Except HTTPErr (String × Nat)) : Bool :=
  match res with
  | .error e => isInvalidInputErr e
  | .ok _ => false

/-- The validation condition exactly as claim C4 words it: destination must
start with `http://` or `https://`, validity in `[1, 525600]`, and a
provided (non-empty) custom code must have length in `[3, 20]` and consist
of ASCII letters and digits only (`Char.isAlphanum`). -/
def specInvalidInput (req : URLRequest) : Bool :=
  !(startsWithStr req.url "http://" || startsWithStr req.url "https://") ||
  (decide (req.validity < 1) || decide (525600 < req.validity)) ||
  (match req.shortcode with
   | none => false
   | some sc => sc.length != 0 &&
      ((sc.length < 3 || 20 < sc.length) || !(sc.toList.all Char.isAlphanum)))

/-- The validation condition the code actually enforces: as above but with
Python's `str.isalnum` (`pyIsAlnum`) in place of the ASCII-only check. -/
def codeInvalidInput (req : URLRequest) : Bool :=
  !(startsWithStr req.url "http://" || startsWithStr req.url "https://") ||
  (decide (req.validity < 1) || decide (525600 < req.validity)) ||
  (match req.shortcode with
   | none => false
   | some sc => sc.length != 0 &&
      ((sc.length < 3 || 20 < sc.length) || !(pyIsAlnum sc)))

/-! ## Basic lemmas about the store primitives -/

theorem shortcode_exists_iff (s : Store) (c : String) :
    shortcode_exists s c = true ↔ ∃ r ∈ s, r.shortcode = c := by
  simp [shortcode_exists]

theorem shortcode_exists_false_iff (s : Store) (c : String) :
    shortcode_exists s c = false ↔ c ∉ s.map URLRecord.shortcode := by
  rw [← Bool.not_eq_true, shortcode_exists_iff]
  simp [List.mem_map, eq_comm]

theorem get_url_eq_none_iff (s : Store) (c : String) :
    get_url s c = none ↔ shortcode_exists s c = false := by
  rw [← Bool.not_eq_true, shortcode_exists_iff]
  simp [get_url, List.find?_eq_none]

theorem get_url_some (s : Store) (c : String) (r : URLRecord)
    (h : get_url s c = some r) : r.shortcode = c ∧ r ∈ s := by
  have h1 := List.find?_some h
  have h2 := List.mem_of_find?_eq_some h
  exact ⟨by simpa using h1, h2⟩

theorem get_url_append_left (s t : Store) (c : String) (r : URLRecord)
    (h : get_url s c = some r) : get_url (s ++ t) c = some r := by
  simp [get_url, List.find?_append] at h ⊢
  simp [h]

theorem get_url_append_fresh (s : Store) (c u : String) (e : Nat)
    (h : shortcode_exists s c = false) :
    get_url (s ++ [⟨c, u, e, 0⟩]) c = some ⟨c, u, e, 0⟩ := by
  have h0 : get_url s c = none := (get_url_eq_none_iff s c).mpr h
  rw [get_url, List.find?_append]
  rw [get_url] at h0
  simp [h0, List.find?_cons]

theorem save_url_eq_some (s : Store) (c u : String) (e : Nat) (s' : Store)
    (h : save_url s c u e = some s') :
    shortcode_exists s c = false ∧ s' = s ++ [⟨c, u, e, 0⟩] := by
  unfold save_url at h
  split at h <;> simp_all

theorem increment_shortcodes (s : Store) (c : String) :
    (increment_count s c).map URLRecord.shortcode = s.map URLRecord.shortcode := by
  rw [increment_count, List.map_map]
  congr 1
  funext r
  by_cases h : r.shortcode == c <;> simp [Function.comp, h]

theorem shortcode_exists_increment (s : Store) (c c' : String) :
    shortcode_exists (increment_count s c) c' = shortcode_exists s c' := by
  rw [shortcode_exists, increment_count, List.any_map]
  rw [shortcode_exists]
  congr 1
  funext r
  by_cases h : r.shortcode == c <;> simp [Function.comp, h]

theorem find?_ext {α : Type} (p q : α → Bool) (l : List α) (h : ∀ a, p a = q a) :
    l.find? p = l.find? q := by
  induction l with
  | nil => rfl
  | cons a l ih => rw [List.find?_cons, List.find?_cons, h a, ih]

theorem find?_increment (s : Store) (c c' : String) :
    (increment_count s c).find? (fun r => r.shortcode == c')
      = (s.find? (fun r => r.shortcode == c')).map
          fun r => if r.shortcode == c
            then { r with access_count := r.access_count + 1 } else r := by
  rw [increment_count, List.find?_map]
  refine (congrArg _ (find?_ext _ _ s fun r => ?_)).trans rfl
  by_cases h : (r.shortcode == c) = true <;> simp [Function.comp, h]

theorem get_url_increment_self (s : Store) (c : String) :
    get_url (increment_count s c) c
      = (get_url s c).map fun r => { r with access_count := r.access_count + 1 } := by
  rw [get_url, find?_increment, get_url]
  cases hf : s.find? (fun r => r.shortcode == c) with
  | none => rfl
  | some r =>
      have hr := List.find?_some hf
      simp only [] at hr
      simp [hr]
      exact fun hn => absurd (by simpa using hr) hn

theorem get_url_increment_other (s : Store) (c c' : String) (h : c' ≠ c) :
    get_url (increment_count s c) c' = get_url s c' := by
  rw [get_url, find?_increment, get_url]
  cases hf : s.find? (fun r => r.shortcode == c') with
  | none => rfl
  | some r =>
      have hr := List.find?_some hf
      simp only [] at hr
      have hb : (r.shortcode == c) = false := by
        rw [beq_eq_false_iff_ne]
        intro e
        exact h ((beq_iff_eq.mp hr).symm.trans e)
      simp [hb]
      exact fun e => absurd e (by simpa using hb)

/-! ## The random-candidate loop -/

theorem findFresh_congr (s : Store) (gen gen' : Nat → String) (fuel i : Nat)
    (h : ∀ j, i ≤ j → j < i + fuel → gen j = gen' j) :
    findFresh s gen i fuel = findFresh s gen' i fuel := by
  induction fuel generalizing i with
  | zero => rfl
  | succ fuel ih =>
      simp only [findFresh]
      rw [h i le_rfl (by omega)]
      split
      · exact ih (i + 1) fun j hj hj' => h j (by omega) (by omega)
      · rfl

theorem findFresh_some (s : Store) (gen : Nat → String) (fuel i : Nat) (c : String)
    (h : findFresh s gen i fuel = some c) :
    ∃ j, i ≤ j ∧ j < i + fuel ∧ c = gen j ∧ shortcode_exists s c = false ∧
      ∀ k, i ≤ k → k < j → shortcode_exists s (gen k) = true := by
  induction fuel generalizing i with
  | zero => simp [findFresh] at h
  | succ fuel ih =>
      simp only [findFresh] at h
      by_cases htaken : shortcode_exists s (gen i) = true
      · rw [if_pos htaken] at h
        obtain ⟨j, hij, hlt, hc, hfree, hprev⟩ := ih (i + 1) h
        refine ⟨j, by omega, by omega, hc, hfree, fun k hk hkj => ?_⟩
        rcases Nat.eq_or_lt_of_le hk with rfl | hk'
        · exact htaken
        · exact hprev k hk' hkj
      · rw [if_neg htaken] at h
        injection h with h'
        subst h'
        exact ⟨i, le_rfl, by omega, rfl, by simpa using htaken,
          fun k hk hkj => absurd (lt_of_le_of_lt hk hkj) (lt_irrefl i)⟩

theorem findFresh_first (s : Store) (gen : Nat → String) (fuel i j : Nat)
    (hij : i ≤ j) (hj : j < i + fuel)
    (hfree : shortcode_exists s (gen j) = false)
    (htaken : ∀ k, i ≤ k → k < j → shortcode_exists s (gen k) = true) :
    findFresh s gen i fuel = some (gen j) := by
  induction fuel generalizing i with
  | zero => omega
  | succ fuel ih =>
      simp only [findFresh]
      rcases Nat.eq_or_lt_of_le hij with rfl | hlt
      · rw [if_neg (by simp [hfree])]
      · rw [if_pos (htaken i le_rfl hlt)]
        exact ih (i + 1) (by omega) (by omega) fun k hk hkj => htaken k (by omega) hkj

theorem findFresh_isNone (s : Store) (gen : Nat → String) (fuel i : Nat)
    (h : ∀ j, i ≤ j → j < i + fuel → shortcode_exists s (gen j) = true) :
    findFresh s gen i fuel = none := by
  induction fuel generalizing i with
  | zero => rfl
  | succ fuel ih =>
      simp only [findFresh]
      rw [if_pos (h i le_rfl (by omega))]
      exact ih (i + 1) fun j hj hj' => h j (by omega) (by omega)

/-! ## Inversion lemmas for allocation -/

theorem chooseShortcode_ok_custom (s : Store) (sc? : Option String)
    (gen : Nat → String) (code : String) (ht : truthy sc? = true)
    (h : chooseShortcode s sc? gen = .ok code) :
    sc? = some code ∧ 3 ≤ code.length ∧ code.length ≤ 20 ∧
      pyIsAlnum code = true ∧ shortcode_exists s code = false := by
  cases sc? with
  | none => simp [truthy] at ht
  | some sc =>
      rw [chooseShortcode, if_pos ht] at h
      simp only [Option.getD_some] at h
      by_cases hlen : (sc.length < 3 || 20 < sc.length) = true
      · rw [if_pos hlen] at h
        exact absurd h (by simp)
      · rw [if_neg hlen] at h
        by_cases halnum : pyIsAlnum sc = false
        · rw [if_pos halnum] at h
          exact absurd h (by simp)
        · rw [if_neg halnum] at h
          by_cases hex : shortcode_exists s sc = true
          · rw [if_pos hex] at h
            exact absurd h (by simp)
          · rw [if_neg hex] at h
            injection h with h'
            subst h'
            simp only [Bool.or_eq_true, not_or, decide_eq_true_eq] at hlen
            exact ⟨rfl, by omega, by omega, by simpa using halnum, by simpa using hex⟩

theorem chooseShortcode_ok_random (s : Store) (sc? : Option String)
    (gen : Nat → String) (code : String) (ht : truthy sc? = false)
    (h : chooseShortcode s sc? gen = .ok code) :
    findFresh s gen 0 10 = some code := by
  rw [chooseShortcode, if_neg (by simp [ht])] at h
  cases hf : findFresh s gen 0 10 with
  | none => rw [hf] at h; exact absurd h (by simp)
  | some c => rw [hf] at h; injection h with h'; rw [h']

theorem chooseShortcode_random_eq (s : Store) (sc? : Option String)
    (gen : Nat → String) (ht : truthy sc? = false) :
    chooseShortcode s sc? gen
      = match findFresh s gen 0 10 with
        | some c => .ok c
        | none => .error exhaustedErr := by
  rw [chooseShortcode, if_neg (by simp [ht])]

theorem chooseShortcode_taken (s : Store) (sc : String) (gen : Nat → String)
    (hne : sc ≠ "") (hlen3 : 3 ≤ sc.length) (hlen20 : sc.length ≤ 20)
    (halnum : pyIsAlnum sc = true) (hex : shortcode_exists s sc = true) :
    chooseShortcode s (some sc) gen = .error conflictErr := by
  have ht : truthy (some sc) = true := by
    obtain ⟨l⟩ := sc
    cases l with
    | nil => exact absurd rfl hne
    | cons a l => rfl
  rw [chooseShortcode, if_pos ht]
  simp only [Option.getD_some]
  rw [if_neg (by simp; omega), if_neg (by simp [halnum]), if_pos hex]

theorem create_short_url_eq_of_valid (s : Store) (req : URLRequest) (now : Nat)
    (gen : Nat → String) (hu : validUrl req.url = true)
    (hv : validityOk req.validity = true) :
    create_short_url s req now gen
      = match chooseShortcode s req.shortcode gen with
        | .error e => (.error e, s)
        | .ok shortcode =>
            match save_url s shortcode req.url (now + 60 * req.validity.toNat) with
            | none => (.error internalErr, s)
            | some s' => (.ok (shortcode, now + 60 * req.validity.toNat), s') := by
  rw [validUrl] at hu
  rw [validityOk] at hv
  rw [create_short_url, if_neg (by simp [hu]), if_neg (by simpa using hv)]

theorem create_ok_inv (s : Store) (req : URLRequest) (now : Nat)
    (gen : Nat → String) (code : String) (exp : Nat) (s' : Store)
    (h : create_short_url s req now gen = (.ok (code, exp), s')) :
    validUrl req.url = true ∧ validityOk req.validity = true ∧
    chooseShortcode s req.shortcode gen = .ok code ∧
    exp = now + 60 * req.validity.toNat ∧
    shortcode_exists s code = false ∧
    s' = s ++ [⟨code, req.url, exp, 0⟩] := by
  by_cases hu : validUrl req.url = true
  case neg =>
      have hu' : validUrl req.url = false := by
        revert hu
        cases validUrl req.url <;> simp
      rw [validUrl] at hu'
      rw [create_short_url, if_pos (by rw [hu']; rfl)] at h
      simp at h
  by_cases hv : validityOk req.validity = true
  case neg =>
      have hv' : validityOk req.validity = false := by
        revert hv
        cases validityOk req.validity <;> simp
      rw [validityOk] at hv'
      have hcond : (decide (req.validity < 1) || decide (525600 < req.validity)) = true := by
        cases hx : (decide (req.validity < 1) || decide (525600 < req.validity))
        · rw [hx] at hv'
          simp at hv'
        · rfl
      rw [create_short_url, if_neg (by rw [validUrl] at hu; simp [hu]), if_pos hcond] at h
      simp at h
  rw [create_short_url_eq_of_valid s req now gen hu hv] at h
  cases hc : chooseShortcode s req.shortcode gen with
  | error e => rw [hc] at h; simp at h
  | ok sc =>
      rw [hc] at h
      have h2 : (match save_url s sc req.url (now + 60 * req.validity.toNat) with
          | none => ((Except.error internalErr : Except HTTPErr (String × Nat)), s)
          | some s' => (Except.ok (sc, now + 60 * req.validity.toNat), s'))
          = (Except.ok (code, exp), s') := h
      cases hs : save_url s sc req.url (now + 60 * req.validity.toNat) with
      | none => rw [hs] at h2; simp at h2
      | some s'' =>
          rw [hs] at h2
          simp only [Prod.mk.injEq, Except.ok.injEq] at h2
          obtain ⟨⟨hcode, hexp⟩, hs'⟩ := h2
          subst hcode hexp hs'
          obtain ⟨hfree, hshape⟩ := save_url_eq_some s sc req.url _ s'' hs
          exact ⟨hu, hv, rfl, rfl, hfree, hshape⟩

theorem create_short_url_spec (s : Store) (req : URLRequest) (now : Nat)
    (gen : Nat → String) :
    (∃ e, create_short_url s req now gen = (.error e, s)) ∨
    ∃ code, chooseShortcode s req.shortcode gen = .ok code ∧
      shortcode_exists s code = false ∧
      create_short_url s req now gen
        = (.ok (code, now + 60 * req.validity.toNat),
           s ++ [⟨code, req.url, now + 60 * req.validity.toNat, 0⟩]) := by
  by_cases hu : validUrl req.url = true
  case neg =>
      refine Or.inl ⟨invalidUrlErr, ?_⟩
      have hu' : validUrl req.url = false := by
        revert hu
        cases validUrl req.url <;> simp
      rw [validUrl] at hu'
      rw [create_short_url, if_pos (by rw [hu']; rfl)]
  by_cases hv : validityOk req.validity = true
  case neg =>
      refine Or.inl ⟨invalidValidityErr, ?_⟩
      have hv' : validityOk req.validity = false := by
        revert hv
        cases validityOk req.validity <;> simp
      rw [validityOk] at hv'
      have hcond : (decide (req.validity < 1) || decide (525600 < req.validity)) = true := by
        cases hx : (decide (req.validity < 1) || decide (525600 < req.validity))
        · rw [hx] at hv'
          simp at hv'
        · rfl
      rw [create_short_url, if_neg (by rw [validUrl] at hu; simp [hu]), if_pos hcond]
  rw [create_short_url_eq_of_valid s req now gen hu hv]
  cases hc : chooseShortcode s req.shortcode gen with
  | error e => exact Or.inl ⟨e, rfl⟩
  | ok sc =>
      by_cases hex : shortcode_exists s sc = true
      · have hs : save_url s sc req.url (now + 60 * req.validity.toNat) = none := by
          rw [save_url, if_pos hex]
        exact Or.inl ⟨internalErr, by simp only [hs]⟩
      · have hexf : shortcode_exists s sc = false := by
          revert hex
          cases shortcode_exists s sc <;> simp
        have hs : save_url s sc req.url (now + 60 * req.validity.toNat)
            = some (s ++ [⟨sc, req.url, now + 60 * req.validity.toNat, 0⟩]) := by
          rw [save_url, if_neg (by simp [hexf])]
        exact Or.inr ⟨sc, rfl, hexf, by simp only [hs]⟩

/-! ## Direct evaluations of `redirect_to_url` -/

theorem redirect_notFound (s : Store) (code : String) (now : Nat) (incOk : Bool)
    (h : get_url s code = none) :
    redirect_to_url s code now incOk = (.error notFoundErr, s) := by
  rw [redirect_to_url, h]

theorem redirect_expired (s : Store) (code : String) (now : Nat) (incOk : Bool)
    (r : URLRecord) (h : get_url s code = some r) (hexp : r.expiry < now) :
    redirect_to_url s code now incOk = (.error expiredErr, s) := by
  rw [redirect_to_url, h]
  simp [hexp]

theorem redirect_ok (s : Store) (code : String) (now : Nat) (r : URLRecord)
    (h : get_url s code = some r) (hexp : now ≤ r.expiry) :
    redirect_to_url s code now true = (.ok r.url, increment_count s code) := by
  have h2 : ¬ r.expiry < now := Nat.not_lt.mpr hexp
  rw [redirect_to_url, h]
  simp [h2]

theorem redirect_incFail (s : Store) (code : String) (now : Nat) (r : URLRecord)
    (h : get_url s code = some r) (hexp : now ≤ r.expiry) :
    redirect_to_url s code now false = (.error internalErr, s) := by
  have h2 : ¬ r.expiry < now := Nat.not_lt.mpr hexp
  rw [redirect_to_url, h]
  simp [h2]

theorem resolve_store_shape (s : Store) (code : String) (now : Nat) (incOk : Bool) :
    (redirect_to_url s code now incOk).2 = s ∨
    (redirect_to_url s code now incOk).2 = increment_count s code := by
  rw [redirect_to_url]
  cases h : get_url s code with
  | none => exact Or.inl rfl
  | some r =>
      by_cases hexp : r.expiry < now
      · exact Or.inl (by simp [hexp])
      · cases incOk
        · exact Or.inl (by simp [hexp])
        · exact Or.inr (by simp [hexp])

/-! ## Persistence of records across calls -/

theorem shortcode_exists_append_left (s t : Store) (c : String)
    (h : shortcode_exists s c = true) : shortcode_exists (s ++ t) c = true := by
  rw [shortcode_exists, List.any_append]
  rw [shortcode_exists] at h
  simp [h]

theorem shortcode_exists_applyOp (s : Store) (op : Op) (c : String)
    (h : shortcode_exists s c = true) :
    shortcode_exists (applyOp s op) c = true := by
  cases op with
  | create req now gen =>
      rcases create_short_url_spec s req now gen with ⟨e, he⟩ | ⟨code, _, _, he⟩
      · rw [applyOp, he]
        exact h
      · rw [applyOp, he]
        exact shortcode_exists_append_left s _ c h
  | resolve code2 now incOk =>
      rcases resolve_store_shape s code2 now incOk with he | he
      · rw [applyOp, he]
        exact h
      · rw [applyOp, he, shortcode_exists_increment]
        exact h

theorem shortcode_exists_runFrom (s : Store) (ops : List Op) (c : String)
    (h : shortcode_exists s c = true) :
    shortcode_exists (runFrom s ops) c = true := by
  induction ops generalizing s with
  | nil => exact h
  | cons op ops ih => exact ih _ (shortcode_exists_applyOp s op c h)

theorem get_url_applyOp (s : Store) (op : Op) (c : String) (r : URLRecord)
    (h : get_url s c = some r) :
    ∃ k, get_url (applyOp s op) c = some ⟨r.shortcode, r.url, r.expiry, k⟩ := by
  cases op with
  | create req now gen =>
      rcases create_short_url_spec s req now gen with ⟨e, he⟩ | ⟨code, _, _, he⟩
      · exact ⟨r.access_count, by rw [applyOp, he]; exact h⟩
      · exact ⟨r.access_count, by rw [applyOp, he]; exact get_url_append_left s _ c r h⟩
  | resolve code2 now incOk =>
      rcases resolve_store_shape s code2 now incOk with he | he
      · exact ⟨r.access_count, by rw [applyOp, he]; exact h⟩
      · by_cases hc : c = code2
        · subst hc
          refine ⟨r.access_count + 1, ?_⟩
          rw [applyOp, he, get_url_increment_self, h]
          rfl
        · exact ⟨r.access_count,
            by rw [applyOp, he, get_url_increment_other s code2 c hc]; exact h⟩

theorem get_url_runFrom (s : Store) (ops : List Op) (c : String) (r : URLRecord)
    (h : get_url s c = some r) :
    ∃ k, get_url (runFrom s ops) c = some ⟨r.shortcode, r.url, r.expiry, k⟩ := by
  induction ops generalizing s r with
  | nil => exact ⟨r.access_count, h⟩
  | cons op ops ih =>
      obtain ⟨k, hk⟩ := get_url_applyOp s op c r h
      obtain ⟨k', hk'⟩ := ih (applyOp s op) ⟨r.shortcode, r.url, r.expiry, k⟩ hk
      exact ⟨k', hk'⟩

/-! ## Preservation of code uniqueness -/

theorem codesNodup_save (s s' : Store) (c u : String) (e : Nat)
    (hn : codesNodup s) (h : save_url s c u e = some s') : codesNodup s' := by
  obtain ⟨hfree, rfl⟩ := save_url_eq_some s c u e s' h
  rw [codesNodup, List.map_append, List.nodup_append]
  refine ⟨hn, List.nodup_singleton _, ?_⟩
  intro a ha hb
  simp at hb
  exact (shortcode_exists_false_iff s c).mp hfree (hb ▸ ha)

theorem codesNodup_applyStoreOp (s : Store) (op : StoreOp) (hn : codesNodup s) :
    codesNodup (applyStoreOp s op) := by
  cases op with
  | insert c u e =>
      rw [applyStoreOp]
      cases h : save_url s c u e with
      | none => exact hn
      | some s' => exact codesNodup_save s s' c u e hn h
  | increment c =>
      rw [applyStoreOp, codesNodup, increment_shortcodes]
      exact hn

theorem codesNodup_runStoreFrom (s : Store) (ops : List StoreOp)
    (hn : codesNodup s) : codesNodup (runStoreFrom s ops) := by
  induction ops generalizing s with
  | nil => exact hn
  | cons op ops ih => exact ih _ (codesNodup_applyStoreOp s op hn)

theorem codesNodup_applyOp (s : Store) (op : Op) (hn : codesNodup s) :
    codesNodup (applyOp s op) := by
  cases op with
  | create req now gen =>
      rcases create_short_url_spec s req now gen with ⟨e, he⟩ | ⟨c, _, hfree, he⟩
      · rw [applyOp, he]
        exact hn
      · rw [applyOp, he]
        have hs : save_url s c req.url (now + 60 * req.validity.toNat)
            = some (s ++ [⟨c, req.url, now + 60 * req.validity.toNat, 0⟩]) := by
          rw [save_url, if_neg (by simp [hfree])]
        exact codesNodup_save _ _ _ _ _ hn hs
  | resolve code now incOk =>
      rcases resolve_store_shape s code now incOk with he | he
      · rw [applyOp, he]
        exact hn
      · rw [applyOp, he, codesNodup, increment_shortcodes]
        exact hn

theorem codesNodup_runFrom (s : Store) (ops : List Op) (hn : codesNodup s) :
    codesNodup (runFrom s ops) := by
  induction ops generalizing s with
  | nil => exact hn
  | cons op ops ih => exact ih _ (codesNodup_applyOp s op hn)

/-! ## The claims -/

/-- Claim C2: for every code, `resolve` fails with `NotFound` exactly when no
record with that code is stored; when the record exists and `now > expiresAt`
it fails with `Expired` (a failure distinct from `NotFound`); when the record
exists and `now ≤ expiresAt` it succeeds and returns the stored destination. -/
theorem C2_resolve_semantics (s : Store) (code : String) (now : Nat) :
    ((redirect_to_url s code now true).1 = .error notFoundErr ↔
      get_url s code = none) ∧
    (∀ r, get_url s code = some r → r.expiry < now →
      (redirect_to_url s code now true).1 = .error expiredErr) ∧
    (∀ r, get_url s code = some r → now ≤ r.expiry →
      (redirect_to_url s code now true).1 = .ok r.url) ∧
    expiredErr ≠ notFoundErr := by
  refine ⟨⟨?_, ?_⟩, ?_, ?_, by decide⟩
  · intro h
    cases hg : get_url s code with
    | none => rfl
    | some r =>
        by_cases hexp : r.expiry < now
        · rw [redirect_expired s code now true r hg hexp] at h
          simp [expiredErr, notFoundErr] at h
        · rw [redirect_ok s code now r hg (Nat.not_lt.mp hexp)] at h
          exact absurd h (by simp)
  · intro h
    rw [redirect_notFound s code now true h]
  · intro r hg hexp
    rw [redirect_expired s code now true r hg hexp]
  · intro r hg hexp
    rw [redirect_ok s code now r hg hexp]

theorem C2_resolve_semantics_witness :
    (redirect_to_url [⟨"abc", "http://x.com", 100, 0⟩] "abc" 100 true).1
      = .ok "http://x.com" :=
  (C2_resolve_semantics [⟨"abc", "http://x.com", 100, 0⟩] "abc" 100).2.2.1
    ⟨"abc", "http://x.com", 100, 0⟩ rfl (by decide)

/-- Claim C7: for a stored record, `resolve` succeeds exactly when
`now ≤ expiresAt` (so still at the boundary `now = expiresAt`); no endpoint
call ever changes the record's `expiresAt` (or its destination); and once
`now₁ > expiresAt`, resolving at any `now₂ ≥ now₁` after any further sequence
of calls still fails with `Expired`. -/
theorem C7_expiry_monotonic (s : Store) (code : String) (r : URLRecord)
    (h : get_url s code = some r) :
    (∀ now, (redirect_to_url s code now true).1 = .ok r.url ↔ now ≤ r.expiry) ∧
    (∀ op, ∃ k, get_url (applyOp s op) code
      = some ⟨r.shortcode, r.url, r.expiry, k⟩) ∧
    (∀ now1 now2 (ops : List Op) (incOk : Bool), r.expiry < now1 → now1 ≤ now2 →
      (redirect_to_url (runFrom s ops) code now2 incOk).1 = .error expiredErr) := by
  refine ⟨?_, fun op => get_url_applyOp s op code r h, ?_⟩
  · intro now
    constructor
    · intro hok
      by_cases hexp : r.expiry < now
      · rw [redirect_expired s code now true r h hexp] at hok
        exact absurd hok (by simp)
      · exact Nat.not_lt.mp hexp
    · intro hle
      rw [redirect_ok s code now r h hle]
  · intro now1 now2 ops incOk hexp hle
    obtain ⟨k, hk⟩ := get_url_runFrom s ops code r h
    rw [redirect_expired (runFrom s ops) code now2 incOk _ hk (by simp; omega)]

theorem C7_expiry_monotonic_witness :
    ((redirect_to_url [⟨"abc", "http://x.com", 100, 0⟩] "abc" 100 true).1
        = .ok "http://x.com") ∧
    ((redirect_to_url [⟨"abc", "http://x.com", 100, 0⟩] "abc" 101 true).1
        = .error expiredErr) :=
  ⟨((C7_expiry_monotonic [⟨"abc", "http://x.com", 100, 0⟩] "abc"
      ⟨"abc", "http://x.com", 100, 0⟩ rfl).1 100).mpr (by decide),
   (C7_expiry_monotonic [⟨"abc", "http://x.com", 100, 0⟩] "abc"
      ⟨"abc", "http://x.com", 100, 0⟩ rfl).2.2 101 101 [] true (by decide) le_rfl⟩

/-- Claim C9 as stated is refuted by the code: on a stored, non-expired code
whose access-count update fails, `redirect_to_url` does not succeed — the
`except Exception` handler turns the failed `increment_count` into a 500
`"Internal server error"` that the caller sees. -/
theorem C9_counterexample :
    get_url [⟨"abc", "https://example.com", 100, 0⟩] "abc"
        = some ⟨"abc", "https://example.com", 100, 0⟩ ∧
    (50 : Nat) ≤ 100 ∧
    (redirect_to_url [⟨"abc", "https://example.com", 100, 0⟩] "abc" 50 false).1
        = .error internalErr ∧
    ∀ u, (redirect_to_url [⟨"abc", "https://example.com", 100, 0⟩]
        "abc" 50 false).1 ≠ .ok u := by
  refine ⟨rfl, by omega, rfl, ?_⟩
  intro u h
  have h0 : (redirect_to_url [⟨"abc", "https://example.com", 100, 0⟩]
      "abc" 50 false).1 = Except.error internalErr := rfl
  rw [h0] at h
  exact Except.noConfusion h

/-- Claim C9, amended: when the increment of the access count fails on a
stored, non-expired code, `redirect_to_url` fails with the internal server
error (HTTP 500) — the failure is visible to the caller — and the store is
left unchanged. -/
theorem C9_increment_failure (s : Store) (code : String) (now : Nat)
    (r : URLRecord) (h : get_url s code = some r) (hexp : now ≤ r.expiry) :
    redirect_to_url s code now false = (.error internalErr, s) ∧
    internalErr.status = 500 :=
  ⟨redirect_incFail s code now r h hexp, rfl⟩

theorem C9_increment_failure_witness :
    redirect_to_url [⟨"abc", "https://example.com", 100, 0⟩] "abc" 50 false
        = (.error internalErr, [⟨"abc", "https://example.com", 100, 0⟩]) ∧
    internalErr.status = 500 :=
  C9_increment_failure [⟨"abc", "https://example.com", 100, 0⟩] "abc" 50
    ⟨"abc", "https://example.com", 100, 0⟩ rfl (by decide)

/-- Claim C3: a successful `create_short_url` returns
`(code, now + validityMinutes)` (timestamps in seconds, so
`now + 60 · validity`), appends exactly the record
`{code, destination, expiresAt, accessCount := 0}` to the store, and the
code is the caller's (truthy) custom shortcode when one was given, and
otherwise the first generated candidate that was not already stored. -/
theorem C3_allocate_postcondition (s : Store) (req : URLRequest) (now : Nat)
    (gen : Nat → String) (code : String) (exp : Nat) (s' : Store)
    (h : create_short_url s req now gen = (.ok (code, exp), s')) :
    exp = now + 60 * req.validity.toNat ∧
    s' = s ++ [⟨code, req.url, exp, 0⟩] ∧
    shortcode_exists s code = false ∧
    (truthy req.shortcode = true → req.shortcode = some code) ∧
    (truthy req.shortcode = false →
      ∃ i, i < 10 ∧ code = gen i ∧
        ∀ j, j < i → shortcode_exists s (gen j) = true) := by
  obtain ⟨hu, hv, hchoose, hexp, hfree, hshape⟩ :=
    create_ok_inv s req now gen code exp s' h
  refine ⟨hexp, hshape, hfree, ?_, ?_⟩
  · intro ht
    exact (chooseShortcode_ok_custom s req.shortcode gen code ht hchoose).1
  · intro ht
    have hf := chooseShortcode_ok_random s req.shortcode gen code ht hchoose
    obtain ⟨j, h0, hlt, hc, hfree2, hprev⟩ := findFresh_some s gen 10 0 code hf
    exact ⟨j, by omega, hc, fun k hk => hprev k (Nat.zero_le k) hk⟩

theorem C3_allocate_postcondition_witness :
    (1800 : Nat) = 0 + 60 * ((30 : Int)).toNat ∧
    [⟨"abc", "http://x.com", 1800, 0⟩]
      = ([] : Store) ++ [⟨"abc", "http://x.com", 1800, 0⟩] :=
  have h := C3_allocate_postcondition [] ⟨"http://x.com", 30, some "abc"⟩ 0
    (fun _ => "AAAAAA") "abc" 1800 [⟨"abc", "http://x.com", 1800, 0⟩] (by decide)
  ⟨h.1, h.2.1⟩

theorem truthy_some (sc : String) (hne : sc ≠ "") : truthy (some sc) = true := by
  obtain ⟨l⟩ := sc
  cases l with
  | nil => exact absurd rfl hne
  | cons a l => rfl

theorem shortcode_exists_append_self (s : Store) (r : URLRecord) :
    shortcode_exists (s ++ [r]) r.shortcode = true := by
  rw [shortcode_exists, List.any_append]
  simp

/-- Claim C5: a custom shortcode that passes the format checks (non-empty,
length 3–20, alphanumeric in Python's `isalnum` sense) but is already stored
makes `create_short_url` fail with the conflict error — an error distinct
from every `InvalidInput` rejection — leaving the store unchanged; and after
one successful allocation of that custom shortcode, repeating the same
request fails with the conflict error. -/
theorem C5_custom_conflict (s : Store) (req : URLRequest) (now : Nat)
    (gen : Nat → String) (sc : String)
    (hsc : req.shortcode = some sc) (hne : sc ≠ "")
    (hu : validUrl req.url = true) (hv : validityOk req.validity = true)
    (hlen3 : 3 ≤ sc.length) (hlen20 : sc.length ≤ 20)
    (halnum : pyIsAlnum sc = true) :
    (shortcode_exists s sc = true →
      create_short_url s req now gen = (.error conflictErr, s) ∧
      isInvalidInputErr conflictErr = false) ∧
    (∀ c e s' now2 gen2, create_short_url s req now gen = (.ok (c, e), s') →
      create_short_url s' req now2 gen2 = (.error conflictErr, s')) := by
  constructor
  · intro hex
    refine ⟨?_, by decide⟩
    rw [create_short_url_eq_of_valid s req now gen hu hv, hsc,
      chooseShortcode_taken s sc gen hne hlen3 hlen20 halnum hex]
  · intro c e s' now2 gen2 hok
    obtain ⟨_, _, hchoose, _, hfree, hshape⟩ :=
      create_ok_inv s req now gen c e s' hok
    rw [hsc] at hchoose
    obtain ⟨hsome, _, _, _, _⟩ :=
      chooseShortcode_ok_custom s (some sc) gen c (truthy_some sc hne) hchoose
    injection hsome with hcs
    subst hcs
    have hex' : shortcode_exists s' sc = true := by
      rw [hshape]
      exact shortcode_exists_append_self s ⟨sc, req.url, e, 0⟩
    rw [create_short_url_eq_of_valid s' req now2 gen2 hu hv, hsc,
      chooseShortcode_taken s' sc gen2 hne hlen3 hlen20 halnum hex']

theorem C5_custom_conflict_witness :
    (create_short_url [⟨"abc", "http://x.com", 1800, 0⟩]
        ⟨"http://y.com", 30, some "abc"⟩ 0 (fun _ => "AAAAAA")
      = (.error conflictErr, [⟨"abc", "http://x.com", 1800, 0⟩]) ∧
     isInvalidInputErr conflictErr = false) :=
  (C5_custom_conflict [⟨"abc", "http://x.com", 1800, 0⟩]
      ⟨"http://y.com", 30, some "abc"⟩ 0 (fun _ => "AAAAAA") "abc"
      rfl (by decide) (by decide) (by decide) (by decide) (by decide)
      (by decide)).1 (by decide)

/-- Claim C1: code uniqueness.  Every store reachable by a sequence of
endpoint calls from the empty table has pairwise-distinct shortcodes; so
does every store reachable by an arbitrary interleaving of the primitive
store operations (the PRIMARY-KEY insert rejects duplicates, covering
concurrent creation attempts); a successful allocation's code was absent
from the store just before the call; and two successful allocations in one
call sequence never return the same code. -/
theorem C1_uniqueness :
    (∀ ops : List Op, codesNodup (run ops)) ∧
    (∀ sops : List StoreOp, codesNodup (runStoreFrom [] sops)) ∧
    (∀ s req now gen code exp s',
      create_short_url s req now gen = (.ok (code, exp), s') →
      shortcode_exists s code = false) ∧
    (∀ (l1 l2 : List Op) (r1 r2 : URLRequest) (n1 n2 : Nat)
      (g1 g2 : Nat → String) (c1 c2 : String) (e1 e2 : Nat) (s1 s2 : Store),
      create_short_url (run l1) r1 n1 g1 = (.ok (c1, e1), s1) →
      create_short_url (runFrom (applyOp (run l1) (.create r1 n1 g1)) l2)
          r2 n2 g2 = (.ok (c2, e2), s2) →
      c1 ≠ c2) := by
  refine ⟨fun ops => codesNodup_runFrom [] ops List.nodup_nil,
    fun sops => codesNodup_runStoreFrom [] sops List.nodup_nil,
    fun s req now gen code exp s' h =>
      (create_ok_inv s req now gen code exp s' h).2.2.2.2.1, ?_⟩
  intro l1 l2 r1 r2 n1 n2 g1 g2 c1 c2 e1 e2 s1 s2 h1 h2
  obtain ⟨_, _, _, _, hfree1, hshape1⟩ := create_ok_inv _ r1 n1 g1 c1 e1 s1 h1
  have hex1 : shortcode_exists s1 c1 = true := by
    rw [hshape1]
    exact shortcode_exists_append_self _ ⟨c1, r1.url, e1, 0⟩
  have happ : applyOp (run l1) (.create r1 n1 g1) = s1 := by
    rw [applyOp, h1]
  rw [happ] at h2
  obtain ⟨_, _, _, _, hfree2, _⟩ := create_ok_inv _ r2 n2 g2 c2 e2 s2 h2
  have hex2 : shortcode_exists (runFrom s1 l2) c1 = true :=
    shortcode_exists_runFrom s1 l2 c1 hex1
  intro heq
  rw [heq, hfree2] at hex2
  exact Bool.noConfusion hex2

theorem C1_uniqueness_witness : ("abc" : String) ≠ "abd" :=
  C1_uniqueness.2.2.2 [] [] ⟨"http://x.com", 30, some "abc"⟩
    ⟨"http://x.com", 30, some "abd"⟩ 0 0 (fun _ => "AAAAAA") (fun _ => "AAAAAA")
    "abc" "abd" 1800 1800 [⟨"abc", "http://x.com", 1800, 0⟩]
    [⟨"abc", "http://x.com", 1800, 0⟩, ⟨"abd", "http://x.com", 1800, 0⟩]
    (by decide) (by decide)

/-- Claim C6: with no (truthy) custom shortcode on an otherwise valid
request, the allocation loop inspects at most the first ten candidates of
the generator stream; if all ten are already stored it fails with the
exhaustion error — an HTTP 500, not one of the client-input rejections —
leaving the store unchanged; and otherwise the first fresh candidate is the
allocated code. -/
theorem C6_exhaustion (s : Store) (req : URLRequest) (now : Nat)
    (gen : Nat → String) (ht : truthy req.shortcode = false)
    (hu : validUrl req.url = true) (hv : validityOk req.validity = true) :
    ((∀ i, i < 10 → shortcode_exists s (gen i) = true) →
      create_short_url s req now gen = (.error exhaustedErr, s) ∧
      exhaustedErr.status = 500 ∧ isInvalidInputErr exhaustedErr = false) ∧
    (∀ gen2, (∀ i, i < 10 → gen i = gen2 i) →
      create_short_url s req now gen = create_short_url s req now gen2) ∧
    (∀ i, i < 10 → shortcode_exists s (gen i) = false →
      (∀ j, j < i → shortcode_exists s (gen j) = true) →
      (create_short_url s req now gen).1
        = .ok (gen i, now + 60 * req.validity.toNat)) := by
  refine ⟨?_, ?_, ?_⟩
  · intro hall
    refine ⟨?_, rfl, by decide⟩
    rw [create_short_url_eq_of_valid s req now gen hu hv,
      chooseShortcode_random_eq s req.shortcode gen ht,
      findFresh_isNone s gen 10 0 (fun j h0 hj => hall j (by omega))]
  · intro gen2 hgen
    rw [create_short_url_eq_of_valid s req now gen hu hv,
      create_short_url_eq_of_valid s req now gen2 hu hv,
      chooseShortcode_random_eq s req.shortcode gen ht,
      chooseShortcode_random_eq s req.shortcode gen2 ht,
      findFresh_congr s gen gen2 10 0 (fun j h0 hj => hgen j (by omega))]
  · intro i hi hfree hprev
    have hs : save_url s (gen i) req.url (now + 60 * req.validity.toNat)
        = some (s ++ [⟨gen i, req.url, now + 60 * req.validity.toNat, 0⟩]) := by
      rw [save_url, if_neg (by simp [hfree])]
    rw [create_short_url_eq_of_valid s req now gen hu hv,
      chooseShortcode_random_eq s req.shortcode gen ht,
      findFresh_first s gen 10 0 i (Nat.zero_le i) (by omega) hfree
        (fun k h0 hk => hprev k hk)]
    simp only [hs]

theorem C6_exhaustion_witness :
    create_short_url [⟨"AAAAAA", "http://x.com", 1800, 0⟩]
        ⟨"http://x.com", 30, none⟩ 0 (fun _ => "AAAAAA")
      = (.error exhaustedErr, [⟨"AAAAAA", "http://x.com", 1800, 0⟩]) ∧
    exhaustedErr.status = 500 ∧ isInvalidInputErr exhaustedErr = false :=
  (C6_exhaustion [⟨"AAAAAA", "http://x.com", 1800, 0⟩] ⟨"http://x.com", 30, none⟩
      0 (fun _ => "AAAAAA") rfl (by decide) (by decide)).1 (fun i hi => by decide)

theorem iterResolve_count (s : Store) (code : String) (now : Nat)
    (r : URLRecord) (h : get_url s code = some r) (hexp : now ≤ r.expiry)
    (N : Nat) :
    ∃ rN, get_url (iterResolve s code now N) code = some rN ∧
      rN.access_count = r.access_count + N ∧ rN.expiry = r.expiry ∧
      rN.url = r.url := by
  induction N generalizing s r with
  | zero => exact ⟨r, h, rfl, rfl, rfl⟩
  | succ N ih =>
      have hstep : get_url (redirect_to_url s code now true).2 code
          = some ⟨r.shortcode, r.url, r.expiry, r.access_count + 1⟩ := by
        rw [redirect_ok s code now r h hexp]
        show get_url (increment_count s code) code = _
        rw [get_url_increment_self, h]
        rfl
      obtain ⟨rN, h1, h2, h3, h4⟩ :=
        ih ((redirect_to_url s code now true).2)
          ⟨r.shortcode, r.url, r.expiry, r.access_count + 1⟩ hstep hexp
      refine ⟨rN, h1, ?_, h3, h4⟩
      have h2' : rN.access_count = r.access_count + 1 + N := h2
      omega

/-- Claim C8: a successful resolve of a non-expired record increments that
record's count by exactly 1 and no other record's; `N` chained successful
resolves increase the stored count by exactly `N` (each of them succeeding);
and a resolve that fails with `NotFound` or `Expired` leaves the store —
hence every access count — unchanged. -/
theorem C8_counter_correctness (s : Store) (code : String) (now : Nat)
    (r : URLRecord) (h : get_url s code = some r) (hexp : now ≤ r.expiry) :
    ((redirect_to_url s code now true).1 = .ok r.url ∧
      get_url (redirect_to_url s code now true).2 code
        = some ⟨r.shortcode, r.url, r.expiry, r.access_count + 1⟩ ∧
      ∀ c2, c2 ≠ code →
        get_url (redirect_to_url s code now true).2 c2 = get_url s c2) ∧
    (∀ N, ∃ rN, get_url (iterResolve s code now N) code = some rN ∧
      rN.access_count = r.access_count + N ∧
      (redirect_to_url (iterResolve s code now N) code now true).1
        = .ok r.url) ∧
    (∀ (s0 : Store) (code0 : String) (now0 : Nat) (incOk : Bool),
      ((redirect_to_url s0 code0 now0 incOk).1 = .error notFoundErr ∨
       (redirect_to_url s0 code0 now0 incOk).1 = .error expiredErr) →
      (redirect_to_url s0 code0 now0 incOk).2 = s0) := by
  refine ⟨⟨?_, ?_, ?_⟩, ?_, ?_⟩
  · rw [redirect_ok s code now r h hexp]
  · rw [redirect_ok s code now r h hexp]
    show get_url (increment_count s code) code = _
    rw [get_url_increment_self, h]
    rfl
  · intro c2 hc2
    rw [redirect_ok s code now r h hexp]
    show get_url (increment_count s code) c2 = get_url s c2
    exact get_url_increment_other s code c2 hc2
  · intro N
    obtain ⟨rN, h1, h2, h3, h4⟩ := iterResolve_count s code now r h hexp N
    refine ⟨rN, h1, h2, ?_⟩
    rw [redirect_ok (iterResolve s code now N) code now rN h1
      (by rw [h3]; exact hexp), h4]
  · intro s0 code0 now0 incOk hfail
    cases hg : get_url s0 code0 with
    | none => rw [redirect_notFound s0 code0 now0 incOk hg]
    | some r0 =>
        by_cases hx : r0.expiry < now0
        · rw [redirect_expired s0 code0 now0 incOk r0 hg hx]
        · cases incOk with
          | false =>
              rw [redirect_incFail s0 code0 now0 r0 hg (Nat.not_lt.mp hx)]
          | true =>
              rw [redirect_ok s0 code0 now0 r0 hg (Nat.not_lt.mp hx)] at hfail
              rcases hfail with hf | hf <;> simp [notFoundErr, expiredErr] at hf

theorem C8_counter_correctness_witness :
    ∃ rN, get_url (iterResolve [⟨"abc", "http://x.com", 100, 0⟩] "abc" 50 3)
        "abc" = some rN ∧ rN.access_count = 0 + 3 ∧
      (redirect_to_url (iterResolve [⟨"abc", "http://x.com", 100, 0⟩]
          "abc" 50 3) "abc" 50 true).1 = .ok "http://x.com" :=
  (C8_counter_correctness [⟨"abc", "http://x.com", 100, 0⟩] "abc" 50
    ⟨"abc", "http://x.com", 100, 0⟩ rfl (by decide)).2.1 3

theorem create_invalid_url (s : Store) (req : URLRequest) (now : Nat)
    (gen : Nat → String) (hu : validUrl req.url = false) :
    create_short_url s req now gen = (.error invalidUrlErr, s) := by
  rw [validUrl] at hu
  rw [create_short_url, if_pos (by rw [hu]; rfl)]

theorem create_invalid_validity (s : Store) (req : URLRequest) (now : Nat)
    (gen : Nat → String) (hu : validUrl req.url = true)
    (hv : validityOk req.validity = false) :
    create_short_url s req now gen = (.error invalidValidityErr, s) := by
  rw [validityOk] at hv
  have hcond : (decide (req.validity < 1) || decide (525600 < req.validity))
      = true := by
    cases hx : (decide (req.validity < 1) || decide (525600 < req.validity))
    · rw [hx] at hv
      simp at hv
    · rfl
  rw [create_short_url, if_neg (by rw [validUrl] at hu; simp [hu]),
    if_pos hcond]

theorem create_choose_error (s : Store) (req : URLRequest) (now : Nat)
    (gen : Nat → String) (e : HTTPErr) (hu : validUrl req.url = true)
    (hv : validityOk req.validity = true)
    (hc : chooseShortcode s req.shortcode gen = .error e) :
    create_short_url s req now gen = (.error e, s) := by
  rw [create_short_url_eq_of_valid s req now gen hu hv, hc]

theorem create_ok_of_choose (s : Store) (req : URLRequest) (now : Nat)
    (gen : Nat → String) (c : String) (hu : validUrl req.url = true)
    (hv : validityOk req.validity = true)
    (hc : chooseShortcode s req.shortcode gen = .ok c)
    (hfree : shortcode_exists s c = false) :
    create_short_url s req now gen
      = (.ok (c, now + 60 * req.validity.toNat),
         s ++ [⟨c, req.url, now + 60 * req.validity.toNat, 0⟩]) := by
  have hs2 : save_url s c req.url (now + 60 * req.validity.toNat)
      = some (s ++ [⟨c, req.url, now + 60 * req.validity.toNat, 0⟩]) := by
    rw [save_url, if_neg (by simp [hfree])]
  rw [create_short_url_eq_of_valid s req now gen hu hv, hc]
  simp only [hs2]

theorem chooseShortcode_len_err (s : Store) (sc : String) (gen : Nat → String)
    (ht : truthy (some sc) = true)
    (hlen : (sc.length < 3 || 20 < sc.length) = true) :
    chooseShortcode s (some sc) gen = .error shortcodeLengthErr := by
  rw [chooseShortcode, if_pos ht]
  simp only [Option.getD_some]
  rw [if_pos hlen]

theorem chooseShortcode_format_err (s : Store) (sc : String)
    (gen : Nat → String) (ht : truthy (some sc) = true)
    (hlen : (sc.length < 3 || 20 < sc.length) = false)
    (halnum : pyIsAlnum sc = false) :
    chooseShortcode s (some sc) gen = .error shortcodeFormatErr := by
  rw [chooseShortcode, if_pos ht]
  simp only [Option.getD_some]
  rw [if_neg (by simp [hlen]), if_pos halnum]

theorem chooseShortcode_conflict_err (s : Store) (sc : String)
    (gen : Nat → String) (ht : truthy (some sc) = true)
    (hlen : (sc.length < 3 || 20 < sc.length) = false)
    (halnum : pyIsAlnum sc = true) (hex : shortcode_exists s sc = true) :
    chooseShortcode s (some sc) gen = .error conflictErr := by
  rw [chooseShortcode, if_pos ht]
  simp only [Option.getD_some]
  rw [if_neg (by simp [hlen]), if_neg (by simp [halnum]), if_pos hex]

theorem chooseShortcode_ok_fresh (s : Store) (sc : String)
    (gen : Nat → String) (ht : truthy (some sc) = true)
    (hlen : (sc.length < 3 || 20 < sc.length) = false)
    (halnum : pyIsAlnum sc = true) (hex : shortcode_exists s sc = false) :
    chooseShortcode s (some sc) gen = .ok sc := by
  rw [chooseShortcode, if_pos ht]
  simp only [Option.getD_some]
  rw [if_neg (by simp [hlen]), if_neg (by simp [halnum]),
    if_neg (by simp [hex])]

/-- Claim C4 as stated is refuted: the custom shortcode "abé" (length 3 but
containing the non-ASCII letter é) satisfies the claim's InvalidInput
condition — it has a character that is not an ASCII letter or digit — yet
`create_short_url` accepts it, because Python's `str.isalnum` is
Unicode-aware, and the allocation succeeds. -/
theorem C4_counterexample :
    specInvalidInput ⟨"http://x.com", 30, some "abé"⟩ = true ∧
    create_short_url [] ⟨"http://x.com", 30, some "abé"⟩ 0 (fun _ => "AAAAAA")
      = (.ok ("abé", 1800), [⟨"abé", "http://x.com", 1800, 0⟩]) ∧
    resultInvalidInput (create_short_url [] ⟨"http://x.com", 30, some "abé"⟩ 0
      (fun _ => "AAAAAA")).1 = false :=
  ⟨by decide, by decide, by decide⟩

/-- Claim C4, amended: `create_short_url` fails with an `InvalidInput`
rejection exactly when the destination lacks the `http://`/`https://`
prefix, or the validity is outside `[1, 525600]`, or a provided (non-empty)
custom code has length outside `[3, 20]` or fails Python's `str.isalnum` —
which, unlike the claim's ASCII-only wording, also accepts non-ASCII Unicode
letters and digits; and every failure of `create_short_url` leaves the
store unchanged. -/
theorem C4_validation (s : Store) (req : URLRequest) (now : Nat)
    (gen : Nat → String) :
    resultInvalidInput (create_short_url s req now gen).1
      = codeInvalidInput req ∧
    (∀ e, (create_short_url s req now gen).1 = .error e →
      (create_short_url s req now gen).2 = s) := by
  constructor
  case right =>
    intro e he
    rcases create_short_url_spec s req now gen with ⟨e', hh⟩ | ⟨c, _, _, hh⟩
    · rw [hh]
    · rw [hh] at he
      simp at he
  case left =>
    have d1 : isInvalidInputErr invalidUrlErr = true := by decide
    have d2 : isInvalidInputErr invalidValidityErr = true := by decide
    have d3 : isInvalidInputErr shortcodeLengthErr = true := by decide
    have d4 : isInvalidInputErr shortcodeFormatErr = true := by decide
    have d5 : isInvalidInputErr conflictErr = false := by decide
    have d6 : isInvalidInputErr exhaustedErr = false := by decide
    by_cases hu : validUrl req.url = true
    case neg =>
        have hu' : validUrl req.url = false := by
          revert hu
          cases validUrl req.url <;> simp
        rw [create_invalid_url s req now gen hu']
        rw [validUrl] at hu'
        simp [resultInvalidInput, codeInvalidInput, hu', d1]
    have huA : (startsWithStr req.url "http://"
        || startsWithStr req.url "https://") = true := by
      rw [validUrl] at hu
      exact hu
    by_cases hv : validityOk req.validity = true
    case neg =>
        have hv' : validityOk req.validity = false := by
          revert hv
          cases validityOk req.validity <;> simp
        have hvx : (decide (req.validity < 1) || decide (525600 < req.validity))
            = true := by
          rw [validityOk] at hv'
          cases hxx : (decide (req.validity < 1) || decide (525600 < req.validity))
          · rw [hxx] at hv'
            simp at hv'
          · rfl
        rw [create_invalid_validity s req now gen hu hv']
        simp [resultInvalidInput, codeInvalidInput, huA, hvx, d2]
    have hvx : (decide (req.validity < 1) || decide (525600 < req.validity))
        = false := by
      rw [validityOk] at hv
      cases hxx : (decide (req.validity < 1) || decide (525600 < req.validity))
      · rfl
      · rw [hxx] at hv
        simp at hv
    by_cases ht : truthy req.shortcode = true
    case neg =>
        have ht' : truthy req.shortcode = false := by
          revert ht
          cases truthy req.shortcode <;> simp
        have hclause : (match req.shortcode with
            | none => false
            | some sc => sc.length != 0 &&
                ((sc.length < 3 || 20 < sc.length) || !(pyIsAlnum sc)))
            = false := by
          cases hsc : req.shortcode with
          | none => rfl
          | some sc =>
              rw [hsc] at ht'
              rw [truthy] at ht'
              simp only [ht', Bool.false_and]
        cases hf : findFresh s gen 0 10 with
        | none =>
            rw [create_choose_error s req now gen exhaustedErr hu hv
              (by rw [chooseShortcode_random_eq s req.shortcode gen ht', hf])]
            simp [resultInvalidInput, codeInvalidInput, huA, hvx, hclause, d6]
        | some c =>
            obtain ⟨j, _, _, hc, hfree, _⟩ := findFresh_some s gen 10 0 c hf
            rw [create_ok_of_choose s req now gen c hu hv
              (by rw [chooseShortcode_random_eq s req.shortcode gen ht', hf])
              hfree]
            simp [resultInvalidInput, codeInvalidInput, huA, hvx, hclause]
    case pos =>
        cases hsc : req.shortcode with
        | none =>
            rw [hsc] at ht
            exact absurd ht (by simp [truthy])
        | some sc =>
            rw [hsc] at ht
            have hnel : (sc.length != 0) = true := ht
            by_cases hlen : (sc.length < 3 || 20 < sc.length) = true
            · rw [create_choose_error s req now gen shortcodeLengthErr hu hv
                (by rw [hsc]; exact chooseShortcode_len_err s sc gen ht hlen)]
              simp [resultInvalidInput, codeInvalidInput, hsc, huA, hvx,
                hnel, hlen, d3]
            · have hlen' : (sc.length < 3 || 20 < sc.length) = false := by
                revert hlen
                cases (sc.length < 3 || 20 < sc.length) <;> simp
              by_cases halnum : pyIsAlnum sc = true
              case neg =>
                  have halnum' : pyIsAlnum sc = false := by
                    revert halnum
                    cases pyIsAlnum sc <;> simp
                  rw [create_choose_error s req now gen shortcodeFormatErr hu hv
                    (by rw [hsc]
                        exact chooseShortcode_format_err s sc gen ht hlen' halnum')]
                  simp [resultInvalidInput, codeInvalidInput, hsc, huA, hvx,
                    hnel, hlen', halnum', d4]
              case pos =>
                  by_cases hex : shortcode_exists s sc = true
                  · rw [create_choose_error s req now gen conflictErr hu hv
                      (by rw [hsc]
                          exact chooseShortcode_conflict_err s sc gen ht hlen'
                            halnum hex)]
                    simp [resultInvalidInput, codeInvalidInput, hsc, huA, hvx,
                      hnel, hlen', halnum, d5]
                  · have hex' : shortcode_exists s sc = false := by
                      revert hex
                      cases shortcode_exists s sc <;> simp
                    rw [create_ok_of_choose s req now gen sc hu hv
                      (by rw [hsc]
                          exact chooseShortcode_ok_fresh s sc gen ht hlen'
                            halnum hex') hex']
                    simp [resultInvalidInput, codeInvalidInput, hsc, huA, hvx,
                      hnel, hlen', halnum]

theorem C4_validation_witness :
    resultInvalidInput (create_short_url [] ⟨"not-a-url", 30, none⟩ 0
        (fun _ => "AAAAAA")).1 = codeInvalidInput ⟨"not-a-url", 30, none⟩ ∧
    (create_short_url [] ⟨"not-a-url", 30, none⟩ 0 (fun _ => "AAAAAA")).2
      = [] :=
  ⟨(C4_validation [] ⟨"not-a-url", 30, none⟩ 0 (fun _ => "AAAAAA")).1,
   (C4_validation [] ⟨"not-a-url", 30, none⟩ 0 (fun _ => "AAAAAA")).2
     invalidUrlErr (by decide)⟩

theorem generate_shortcode_length (draw : Fin 6 → Fin 62) :
    (generate_shortcode draw).length = 6 := by
  show ((List.finRange 6).map fun i => shortcodeChars.getD (draw i).val 'a').length = 6
  rw [List.length_map, List.length_finRange]

/-- Claim C10: an empty-string custom shortcode is falsy in
`if request.shortcode:`, so the request behaves exactly as if no shortcode
were provided — it takes the random-generation path — and a successful
allocation then returns a 6-character generated code (every candidate the
generator produces has length 6). -/
theorem C10_empty_shortcode (s : Store) (u : String) (v : Int) (now : Nat)
    (gen : Nat → String) :
    create_short_url s ⟨u, v, some ""⟩ now gen
      = create_short_url s ⟨u, v, none⟩ now gen ∧
    ((∀ i, ∃ draw, gen i = generate_shortcode draw) →
      ∀ c e s', create_short_url s ⟨u, v, some ""⟩ now gen = (.ok (c, e), s') →
        c.length = 6) := by
  constructor
  · rfl
  · intro hdraw c e s' hok
    obtain ⟨_, _, hchoose, _, _, _⟩ :=
      create_ok_inv s ⟨u, v, some ""⟩ now gen c e s' hok
    have hf := chooseShortcode_ok_random s (some "") gen c rfl hchoose
    obtain ⟨j, _, _, hc, _, _⟩ := findFresh_some s gen 10 0 c hf
    obtain ⟨draw, hd⟩ := hdraw j
    rw [hc, hd]
    exact generate_shortcode_length draw

theorem C10_empty_shortcode_witness :
    create_short_url [] ⟨"http://x.com", 30, some ""⟩ 0
        (fun _ => generate_shortcode fun _ => ⟨0, by omega⟩)
      = create_short_url [] ⟨"http://x.com", 30, none⟩ 0
        (fun _ => generate_shortcode fun _ => ⟨0, by omega⟩) ∧
    ("aaaaaa" : String).length = 6 :=
  ⟨(C10_empty_shortcode [] "http://x.com" 30 0
      (fun _ => generate_shortcode fun _ => ⟨0, by omega⟩)).1,
   (C10_empty_shortcode [] "http://x.com" 30 0
      (fun _ => generate_shortcode fun _ => ⟨0, by omega⟩)).2
     (fun i => ⟨fun _ => ⟨0, by omega⟩, rfl⟩) "aaaaaa" 1800
     [⟨"aaaaaa", "http://x.com", 1800, 0⟩] (by decide)⟩
